import Mathlib

/-
Verification of the subql block-dispatch and store-cache core.

Shallow embedding of:
  src/packages/node-core/src/indexer/storeCache/cacheModel.ts
    (CachedModel and, in the same file, CacheMetadataModel)
  src/packages/node-core/src/indexer/blockDispatcher/block-dispatcher.ts
    (BlockDispatcher: enqueueBlocks, flushQueue, the fetch loop)
  src/unnamed/part_001
    (SchemaMigrationService.compareSchema and extractTypeDetails)

JavaScript objects used as string-keyed dictionaries are embedded as
association lists so that state equality is decidable; object keys are
unique, an assignment replaces the entry in place or appends a fresh one,
matching insertion-order semantics of JS objects.
-/

namespace Subql

/-- Lookup of a key in an association list, first entry wins
(JS object property read). -/
def alookup {α : Type} : List (String × α) → String → Option α
  | [], _ => none
  | p :: rest, k => if p.1 == k then some p.2 else alookup rest k

/-- Assignment of a key in an association list: replace the existing entry in
place, or append a new one at the end (JS object property write). -/
def aset {α : Type} : List (String × α) → String → α → List (String × α)
  | [], k, v => [(k, v)]
  | p :: rest, k, v => if p.1 == k then (k, v) :: rest else p :: aset rest k v

/-- Deletion of a key from an association list (JS delete or Map.delete). -/
def adelete {α : Type} (l : List (String × α)) (k : String) : List (String × α) :=
  l.filter (fun p => p.1 != k)

/-- Entity payload: an opaque record with a required textual id and further
string-valued attributes (spec section 3, entity record E). -/
structure Entity where
  id : String
  attrs : List (String × String)
deriving Repr, DecidableEq

/-- Generic field read on an entity, as the source indexes entities with a
dynamic field name (getValue[field]); the id is one of the fields. -/
def Entity.getField (e : Entity) (f : String) : Option String :=
  if f == "id" then some e.id else alookup e.attrs f

/-- Modelled from the spec: RemoveValue of storeCache/types.ts (not under
src/), per spec section 3: a record of the height of removal. -/
structure RemoveValue where
  removedAtBlock : Nat
deriving Repr, DecidableEq

/-- Modelled from the spec: one version held by a SetValueModel
(storeCache/types.ts is not under src/), spec section 3: data with a
half-open block range, endHeight none meaning infinity. -/
structure HistoricalValue where
  data : Entity
  startHeight : Nat
  endHeight : Option Nat
deriving Repr, DecidableEq

/-- Modelled from the spec: SetValueModel of storeCache/types.ts (not under
src/), spec section 4.3: the ordered version list for one id. -/
structure SetValueModel where
  historicalValues : List HistoricalValue
deriving Repr, DecidableEq

/-- Modelled from the spec: getLatest returns the last (most recent)
version, if any. -/
def SetValueModel.getLatest (m : SetValueModel) : Option HistoricalValue :=
  m.historicalValues.getLast?

/-- Modelled from the spec: getFirst returns the earliest version, if any. -/
def SetValueModel.getFirst (m : SetValueModel) : Option HistoricalValue :=
  m.historicalValues.head?

/-- Modelled from the spec, section 4.3: set closes the currently open
version at the new height (if one is open) and appends a new open version;
a set at the open version's own startHeight replaces it in place. -/
def SetValueModel.set (m : SetValueModel) (data : Entity) (blockHeight : Nat) : SetValueModel :=
  match m.historicalValues.getLast? with
  | none => ⟨[⟨data, blockHeight, none⟩]⟩
  | some lastV =>
    if lastV.endHeight.isNone && lastV.startHeight == blockHeight then
      ⟨m.historicalValues.dropLast ++ [⟨data, blockHeight, none⟩]⟩
    else
      let closed := if lastV.endHeight.isNone then { lastV with endHeight := some blockHeight } else lastV
      ⟨m.historicalValues.dropLast ++ [closed, ⟨data, blockHeight, none⟩]⟩

/-- Modelled from the spec, section 4.3: markAsRemoved closes the open
version at the removal height without opening a new one. -/
def SetValueModel.markAsRemoved (m : SetValueModel) (blockHeight : Nat) : SetValueModel :=
  match m.historicalValues.getLast? with
  | none => m
  | some lastV =>
    if lastV.endHeight.isNone then ⟨m.historicalValues.dropLast ++ [{ lastV with endHeight := some blockHeight }]⟩
    else m

/-- Modelled from the spec, section 4.3: isMatchData is true iff the latest
version's field equals the value; an unset field matches anything. -/
def SetValueModel.isMatchData (m : SetValueModel) (field : Option String) (value : String) : Bool :=
  match field with
  | none => true
  | some f =>
    match m.getLatest with
    | none => false
    | some hv => hv.data.getField f == some value

/-- State of CachedModel (cacheModel.ts lines 25 to 37). getCache stores
entries of Option Entity where none is the NULL negative-cache marker; the
bounded-recency eviction of GetData (types.ts, not under src/) is modelled
from the spec section 4.4 as a plain map because no claim concerns
eviction. -/
structure CachedModel where
  getCache : List (String × Option Entity)
  setCache : List (String × SetValueModel)
  removeCache : List (String × RemoveValue)
  flushableRecordCounter : Nat
deriving Repr, DecidableEq

/-- CachedModel.get (cacheModel.ts lines 50 to 73). The DB findOne by
primary key is passed as the function db. Returns the result and the
updated model. The JS truthiness test on the setCache record is isSome,
since entity payloads are objects. -/
def CachedModel.get (db : String → Option Entity) (s : CachedModel) (i : String) :
    Option Entity × CachedModel :=
  if (alookup s.removeCache i).isSome then (none, s)
  else if (alookup s.getCache i).isNone then
    match (alookup s.setCache i).bind (fun m => m.getLatest.map (fun hv => hv.data)) with
    | some record => (some record, s)
    | none => (db i, { s with getCache := aset s.getCache i (db i) })
  else ((alookup s.getCache i).getD none, s)

/-- Claim C2's reading of get, written in the order of the spec sentences
(section 4.5): removed implies NULL, else a getCache entry is returned as
is, else the latest setCache version, else a DB lookup that populates
getCache with its result. Compared against CachedModel.get below. -/
def CachedModel.get_spec (db : String → Option Entity) (s : CachedModel) (i : String) :
    Option Entity × CachedModel :=
  match alookup s.removeCache i with
  | some _ => (none, s)
  | none =>
    match alookup s.getCache i with
    | some entry => (entry, s)
    | none =>
      match (alookup s.setCache i).bind (fun m => m.getLatest.map (fun hv => hv.data)) with
      | some record => (some record, s)
      | none => (db i, { s with getCache := aset s.getCache i (db i) })

/-- CachedModel.set (cacheModel.ts lines 135 to 142): create the
SetValueModel on first use, push the new version, mirror the data into
getCache, and increment flushableRecordCounter, which the source does
unconditionally on every call. -/
def CachedModel.set (s : CachedModel) (i : String) (data : Entity) (blockHeight : Nat) :
    CachedModel :=
  let m := (alookup s.setCache i).getD ⟨[]⟩
  { s with
    setCache := aset s.setCache i (m.set data blockHeight)
    getCache := aset s.getCache i (some data)
    flushableRecordCounter := s.flushableRecordCounter + 1 }

/-- CachedModel.bulkCreate (cacheModel.ts lines 144 to 148): repeated set. -/
def CachedModel.bulkCreate (s : CachedModel) (data : List Entity) (blockHeight : Nat) :
    CachedModel :=
  data.foldl (fun acc e => acc.set e.id e blockHeight) s

/-- CachedModel.bulkUpdate (cacheModel.ts lines 150 to 158): repeated set,
then a thrown error if the fields argument was passed (any array, as JS
arrays are truthy). The pair carries the mutated state together with the
error, since the JS mutations precede the throw. -/
def CachedModel.bulkUpdate (s : CachedModel) (data : List Entity) (blockHeight : Nat)
    (fields : Option (List String)) : CachedModel × Option String :=
  let s2 := data.foldl (fun acc e => acc.set e.id e blockHeight) s
  match fields with
  | some _ => (s2, some "Currently not support update by fields")
  | none => (s2, none)

/-- CachedModel.remove (cacheModel.ts lines 181 to 197): a no-op when the id
is already in removeCache; otherwise record the removal height, bump the
counter, drop the getCache entry when it holds a non-NULL value (the JS
truthiness test on getCache.get), and close any open setCache version. The
three cache fields are independent, so the source's sequential mutations are
written as one record update. -/
def CachedModel.remove (s : CachedModel) (i : String) (blockHeight : Nat) : CachedModel :=
  if (alookup s.removeCache i).isSome then s
  else
    { getCache :=
        if ((alookup s.getCache i).getD none).isSome then adelete s.getCache i else s.getCache
      setCache :=
        match alookup s.setCache i with
        | some m => aset s.setCache i (m.markAsRemoved blockHeight)
        | none => s.setCache
      removeCache := aset s.removeCache i ⟨blockHeight⟩
      flushableRecordCounter := s.flushableRecordCounter + 1 }

/-- CachedModel.isFlushable (cacheModel.ts lines 199 to 201): true iff
setCache has at least one key. -/
def CachedModel.isFlushable (s : CachedModel) : Bool :=
  !s.setCache.isEmpty

/-- CachedModel.getFromCache (cacheModel.ts lines 258 to 285): collect the
latest setCache versions whose data matches, return early on findOne with a
hit, otherwise also scan getCache skipping ids already found and skipping
NULL negative-cache entries (spec section 4.5, step a, excludes NULL). -/
def CachedModel.getFromCache (s : CachedModel) (field : Option String) (value : String)
    (findOne : Bool) : List Entity :=
  let fromSet := s.setCache.foldl
    (fun acc p =>
      if p.2.isMatchData field value then
        match p.2.getLatest with
        | some hv => acc ++ [hv.data]
        | none => acc
      else acc) []
  let unifiedIds := fromSet.map (fun e => e.id)
  if findOne && !fromSet.isEmpty then fromSet
  else
    fromSet ++ s.getCache.foldl
      (fun acc p =>
        match p.2 with
        | none => acc
        | some e =>
          if !unifiedIds.contains p.1 &&
              (match field with
               | none => true
               | some f => e.getField f == some value) then acc ++ [e]
          else acc) []

/-- CachedModel.getOneByField (cacheModel.ts lines 115 to 133). The DB
findOne filtered by the field and by id not in allCachedIds is passed as
its result dbByField; db is the primary-key lookup used by the id fast
path. When the DB returns no row the source dereferences record.id on
undefined, which is the thrown TypeError in the error branch. -/
def CachedModel.getOneByField (db : String → Option Entity) (dbByField : Option Entity)
    (s : CachedModel) (field : String) (value : String) :
    Except String (Option Entity × CachedModel) :=
  if field == "id" then .ok (s.get db value)
  else
    match (s.getFromCache (some field) value true).head? with
    | some one => .ok (some one, s)
    | none =>
      match dbByField with
      | some record => .ok (some record, { s with getCache := aset s.getCache record.id (some record) })
      | none => .error "TypeError: cannot read properties of undefined"

/-- The closed increment-only key set of CacheMetadataModel
(block-dispatcher.ts, metadata section, line 183). -/
def incrementKeys : List String := ["processedBlockCount", "schemaMigrationCount"]

/-- State of CacheMetadataModel (block-dispatcher.ts, metadata section,
lines 185 to 192). The claims exercise only numeric metadata values, so
values are embedded as integers. -/
structure CacheMetadataModel where
  setCache : List (String × Int)
  getCache : List (String × Int)
  flushableRecordCounter : Nat
deriving Repr, DecidableEq

/-- CacheMetadataModel.set (lines 233 to 239): update both caches and bump
the counter only on the first write for the key. -/
def CacheMetadataModel.set (s : CacheMetadataModel) (key : String) (value : Int) :
    CacheMetadataModel :=
  { setCache := aset s.setCache key value
    getCache := aset s.getCache key value
    flushableRecordCounter :=
      if (alookup s.setCache key).isNone then s.flushableRecordCounter + 1
      else s.flushableRecordCounter }

/-- CacheMetadataModel.setIncrement (lines 245 to 247): accumulate the
amount onto the pending value, starting from 0 when none is pending; it
touches neither getCache nor the counter. -/
def CacheMetadataModel.setIncrement (s : CacheMetadataModel) (key : String) (amount : Int) :
    CacheMetadataModel :=
  { s with setCache := aset s.setCache key ((alookup s.setCache key).getD 0 + amount) }

/-- CacheMetadataModel.flush (lines 262 to 278) as its effect on the stored
DB values, together with the cleared model. Non-increment pending entries
are bulk-upserted (last writer wins); each increment key with a truthy
(nonzero) pending value issues incrementJsonbCount. Modelled from the spec:
the raw UPDATE of incrementJsonbCount is a server-side atomic add of the
delta to the value stored at flush time (spec sections 4.6 and 9). clear
resets setCache and the counter only. -/
def CacheMetadataModel.flush (s : CacheMetadataModel) (db : String → Int) :
    (String → Int) × CacheMetadataModel :=
  (fun k =>
    if incrementKeys.contains k then
      match alookup s.setCache k with
      | some v => if v != 0 then db k + v else db k
      | none => db k
    else
      match alookup s.setCache k with
      | some v => v
      | none => db k,
   { s with setCache := [], flushableRecordCounter := 0 })

/-- JS truthiness of an optional number: present and nonzero. -/
def jsTruthyNat : Option Nat → Bool
  | some v => v != 0
  | none => false

/-- JS strict greater-than between optional numbers: any comparison
involving undefined is false. -/
def jsGtOpt : Option Nat → Option Nat → Bool
  | some a, some b => a > b
  | _, _ => false

/-- State of the serial BlockDispatcher (block-dispatcher.ts lines 26 to
173). queue is the inherited bounded FIFO of heights (C1); processQueue is
the backlog of the ordered task runner (C2), kept as the heights of the
pending block tasks since the runner executes them one at a time in
submission order (spec section 4.2); latestBufferedHeight mirrors the
watermark, an Option because JS leaves it undefined until first assigned;
inflight is the pending fetchBlocksBatches call together with the
bufferedHeight snapshot taken when the batch was removed from the queue;
indexed accumulates the heights delivered to indexBlock. -/
structure DispatcherState where
  queue : List Nat
  processQueue : List Nat
  latestBufferedHeight : Option Nat
  inflight : Option (List Nat × Option Nat)
  indexed : List Nat
deriving Repr, DecidableEq

/-- BlockDispatcher.enqueueBlocks (block-dispatcher.ts lines 76 to 91).
Returns the new state and whether fetchBlocksFromQueue was invoked. The
early return fires only when the provided latestBufferHeight is truthy
(nonzero) and the height list is empty; otherwise the heights are appended,
the watermark becomes the provided value when present (JS nullish
coalescing keeps an explicit 0) or else the last height, and the fetch loop
is started. -/
def enqueueBlocks (s : DispatcherState) (cleanedBlocks : List Nat)
    (latestBufferHeight : Option Nat) : DispatcherState × Bool :=
  if jsTruthyNat latestBufferHeight && cleanedBlocks.isEmpty then
    ({ s with latestBufferedHeight := latestBufferHeight }, false)
  else
    ({ s with
        queue := s.queue ++ cleanedBlocks
        latestBufferedHeight :=
          match latestBufferHeight with
          | some v => some v
          | none => cleanedBlocks.getLast? },
     true)

/-- BlockDispatcher.flushQueue (block-dispatcher.ts lines 93 to 96).
Modelled from the spec for the parts outside src/: the base class
flushQueue (spec section 4.8) truncates the height queue and sets the
watermark to the given height; AutoQueue.flush (spec section 4.2) discards
all queued, not yet started tasks. -/
def flushQueue (s : DispatcherState) (height : Nat) : DispatcherState :=
  { s with queue := [], processQueue := [], latestBufferedHeight := some height }

/-- One takeMany step of fetchBlocksFromQueue (block-dispatcher.ts lines 107
to 119): remove up to min(batchSize, free space of the process queue)
heights and snapshot the buffered-height watermark alongside them; when
nothing is taken the loop waits or exits and the state is unchanged. -/
def fetchTake (batchSize capacity : Nat) (s : DispatcherState) : DispatcherState :=
  let n := min batchSize (capacity - s.processQueue.length)
  let blockNums := s.queue.take n
  if blockNums.isEmpty then s
  else { s with queue := s.queue.drop n, inflight := some (blockNums, s.latestBufferedHeight) }

/-- Resolution of the in-flight fetchBlocksBatches call (block-dispatcher.ts
lines 125 to 158): the staleness check discards the batch exactly when the
snapshot exceeds the current buffered height or the queue head is below the
smallest fetched height (a JS comparison against an undefined peek of an
empty queue is false); otherwise one task per block is submitted to the
process queue in order. -/
def fetchResolve (s : DispatcherState) : DispatcherState :=
  match s.inflight with
  | none => s
  | some (blockNums, pre) =>
    let stale := jsGtOpt pre s.latestBufferedHeight ||
      (match s.queue.head?, blockNums.min? with
       | some q, some m => decide (q < m)
       | _, _ => false)
    if stale then { s with inflight := none }
    else { s with inflight := none, processQueue := s.processQueue ++ blockNums }

/-- One step of the ordered task runner (spec section 4.2, AutoQueue is not
under src/): run the next pending block task, which delivers its block to
indexBlock (block-dispatcher.ts lines 134 to 153). -/
def runTask (s : DispatcherState) : DispatcherState :=
  match s.processQueue with
  | [] => s
  | h :: rest => { s with processQueue := rest, indexed := s.indexed ++ [h] }

/-- Initial dispatcher state: empty queues, no watermark assigned yet. -/
def initialDispatcher : DispatcherState :=
  ⟨[], [], none, none, []⟩

/-- Trace refuting claim C1: enqueue heights 10 to 13, take them for an
in-flight fetch, then flush to 9 and enqueue 20 and 21 while the fetch is
still pending, let the fetch resolve and run the four submitted tasks. -/
def c1s1 : DispatcherState := (enqueueBlocks initialDispatcher [10, 11, 12, 13] none).1

/-- The batch 10 to 13 goes in flight with snapshot 13 (batchSize 4,
process-queue capacity 12). -/
def c1s2 : DispatcherState := fetchTake 4 12 c1s1

/-- A mid-flight flushQueue 9 empties both queues and rewinds the
watermark. -/
def c1s3 : DispatcherState := flushQueue c1s2 9

/-- After the flush the upstream enqueues the fresh heights 20 and 21,
raising the watermark to 21. -/
def c1s4 : DispatcherState := (enqueueBlocks c1s3 [20, 21] none).1

/-- The stale fetch now resolves: snapshot 13 is not above 21 and queue head
20 is not below 10, so the staleness check passes the batch through. -/
def c1s5 : DispatcherState := fetchResolve c1s4

/-- Running the submitted tasks delivers the pre-flush heights to
indexBlock. -/
def c1s6 : DispatcherState := runTask (runTask (runTask (runTask c1s5)))

/-- GraphQL type node (the TypeNode AST consumed by extractTypeDetails in
src/unnamed/part_001): a named type possibly wrapped in list and non-null
wrappers. -/
inductive TypeNode where
  | namedType (name : String)
  | listType (ofType : TypeNode)
  | nonNullType (ofType : TypeNode)
deriving Repr, DecidableEq

/-- Result of extractTypeDetails: the source stores the final node kind
under type and the type name under kind (src/unnamed/part_001 lines 40 to
50). -/
structure TypeDetails where
  type : String
  kind : String
deriving Repr, DecidableEq

/-- extractTypeDetails (src/unnamed/part_001 lines 40 to 50): unwrap
NonNullType and ListType wrappers, then report the remaining node's kind as
type and its name as kind. -/
def extractTypeDetails : TypeNode → TypeDetails
  | .namedType n => { type := "NamedType", kind := n }
  | .listType t => extractTypeDetails t
  | .nonNullType t => extractTypeDetails t

/-- One modifiedFields entry of compareSchema: the from and to values of
the extracted type and kind (src/unnamed/part_001 lines 104 to 107). -/
structure FieldChange where
  typeFrom : String
  typeTo : String
  kindFrom : String
  kindTo : String
deriving Repr, DecidableEq

/-- One reducer step of compareSchema's modified-field detection
(src/unnamed/part_001 lines 93 to 118): look the new field's name up among
the old fields; when found, compare the extracted details with the source's
disjunction, which tests kind in both branches, and record the change. -/
def modifiedFieldsStep (oldFields : List (String × TypeNode))
    (acc : List (String × FieldChange)) (newField : String × TypeNode) :
    List (String × FieldChange) :=
  match oldFields.find? (fun p => p.1 == newField.1) with
  | none => acc
  | some oldField =>
    let newFieldDetails := extractTypeDetails newField.2
    let oldFieldDetails := extractTypeDetails oldField.2
    if (oldFieldDetails.kind != newFieldDetails.kind) ||
        (oldFieldDetails.kind != newFieldDetails.kind) then
      aset acc newField.1
        { typeFrom := oldFieldDetails.type, typeTo := newFieldDetails.type
          kindFrom := oldFieldDetails.kind, kindTo := newFieldDetails.kind }
    else acc

/-- compareSchema's modifiedFields accumulator for one entity type
(src/unnamed/part_001 lines 93 to 118): a reduce over the new fields
starting from the empty record. -/
def modifiedFields (newFields oldFields : List (String × TypeNode)) :
    List (String × FieldChange) :=
  newFields.foldl (modifiedFieldsStep oldFields) []

/-- Looking up the key just assigned yields the assigned value. -/
theorem alookup_aset_self {α : Type} (l : List (String × α)) (k : String) (v : α) :
    alookup (aset l k v) k = some v := by
  induction l with
  | nil => simp [aset, alookup]
  | cons p rest ih =>
    by_cases hp : p.1 = k
    · simp [aset, alookup, beq_iff_eq, hp]
    · simp [aset, alookup, beq_iff_eq, hp, ih]

/-- Assigning one key leaves lookups of any other key unchanged. -/
theorem alookup_aset_ne {α : Type} (l : List (String × α)) (k k2 : String) (v : α)
    (hne : k ≠ k2) : alookup (aset l k v) k2 = alookup l k2 := by
  induction l with
  | nil => simp [aset, alookup, beq_iff_eq, hne]
  | cons p rest ih =>
    by_cases hp : p.1 = k
    · simp [aset, alookup, beq_iff_eq, hp, hne]
    · simp [aset, alookup, beq_iff_eq, hp, ih]

/-- An assignment never produces the empty association list. -/
theorem aset_ne_nil {α : Type} (l : List (String × α)) (k : String) (v : α) :
    aset l k v ≠ [] := by
  cases l with
  | nil => simp [aset]
  | cons p rest => by_cases hp : p.1 = k <;> simp [aset, beq_iff_eq, hp]

/-- A successful alookup is witnessed by find? returning the keyed entry. -/
theorem find?_of_alookup {α : Type} (l : List (String × α)) (k : String) (v : α)
    (h : alookup l k = some v) : l.find? (fun p => p.1 == k) = some (k, v) := by
  induction l with
  | nil => simp [alookup] at h
  | cons p rest ih =>
    obtain ⟨p1, p2⟩ := p
    by_cases hp : p1 = k
    · subst hp
      simp [alookup] at h
      simp [List.find?_cons, h]
    · simp [alookup, beq_iff_eq, hp] at h
      simp [List.find?_cons, beq_iff_eq, hp, ih h]

/-- Claim C2: CachedModel.get returns NULL for a removed id, else a present
getCache entry as is (possibly the NULL marker), else the latest setCache
version's data, else the DB primary-key lookup whose result (or NULL) is
written into getCache; stated as equality with the spec-ordered reading
get_spec. -/
theorem C2_get_matches_spec (db : String → Option Entity) (s : CachedModel) (i : String) :
    CachedModel.get db s i = CachedModel.get_spec db s i := by
  unfold CachedModel.get CachedModel.get_spec
  cases alookup s.removeCache i <;>
    cases alookup s.getCache i <;>
      cases (alookup s.setCache i).bind (fun m => m.getLatest.map (fun hv => hv.data)) <;>
        simp

/-- Claim C4 counterexample: two consecutive sets for the same id raise
flushableRecordCounter from 1 to 2, so the second set does not leave it
unchanged as the claim asserts. -/
theorem C4_counterexample :
    (CachedModel.set (CachedModel.set ⟨[], [], [], 0⟩ "a" ⟨"a", []⟩ 5) "a" ⟨"a", []⟩ 6).flushableRecordCounter = 2 ∧
    (CachedModel.set ⟨[], [], [], 0⟩ "a" ⟨"a", []⟩ 5).flushableRecordCounter = 1 ∧
    (2 : Nat) ≠ 1 := by decide

/-- Claim C4 as amended: set upserts into setCache, mirrors the data into
getCache, and increments flushableRecordCounter on every call, including
for an id already present in setCache. -/
theorem C4_set_always_increments (s : CachedModel) (i : String) (d : Entity) (h : Nat) :
    (CachedModel.set s i d h).flushableRecordCounter = s.flushableRecordCounter + 1 ∧
    alookup (CachedModel.set s i d h).setCache i =
      some ((((alookup s.setCache i).getD ⟨[]⟩)).set d h) ∧
    alookup (CachedModel.set s i d h).getCache i = some (some d) :=
  ⟨rfl, by simp [CachedModel.set, alookup_aset_self], by simp [CachedModel.set, alookup_aset_self]⟩

/-- Claim C5: evaluation at the failing input. With field name (not id), no
matching cache entry and a DB that returns no row, the source dereferences
record.id on undefined instead of short-circuiting to NULL, so the model
yields the thrown TypeError rather than ok none. -/
theorem C5_getOneByField_crash :
    CachedModel.getOneByField (fun _ => none) none ⟨[], [], [], 0⟩ "name" "bob" =
      .error "TypeError: cannot read properties of undefined" := rfl

/-- Claim C8: remove is idempotent; the second remove of the same id leaves
the whole model state, hence setCache, removeCache, getCache and
flushableRecordCounter, unchanged. -/
theorem C8_remove_idempotent (s : CachedModel) (i : String) (h : Nat) :
    CachedModel.remove (CachedModel.remove s i h) i h = CachedModel.remove s i h := by
  have hl : (alookup (CachedModel.remove s i h).removeCache i).isSome := by
    unfold CachedModel.remove
    by_cases hc : (alookup s.removeCache i).isSome
    · simp [hc]
    · simp [hc, alookup_aset_self]
  revert hl
  generalize CachedModel.remove s i h = t
  intro hl
  unfold CachedModel.remove
  simp [hl]

/-- Claim C9: bulkUpdate with a non-empty fields argument raises the error
that updating by fields is not supported. -/
theorem C9_bulkUpdate_fields_error (s : CachedModel) (data : List Entity) (h : Nat)
    (l : List String) (hl : l ≠ []) :
    (CachedModel.bulkUpdate s data h (some l)).2 =
      some "Currently not support update by fields" := rfl

/-- Claim C9 witness at a concrete input. -/
theorem C9_bulkUpdate_fields_error_witness :
    (["value"] : List String) ≠ [] ∧
    (CachedModel.bulkUpdate ⟨[], [], [], 0⟩ [] 5 (some ["value"])).2 =
      some "Currently not support update by fields" :=
  ⟨by decide, C9_bulkUpdate_fields_error ⟨[], [], [], 0⟩ [] 5 ["value"] (by decide)⟩

/-- Claim C10: on a model whose setCache is empty, remove leaves isFlushable
false although removeCache becomes (or stays) non-empty, so a removal with
no accompanying set is invisible to a flush driver consulting isFlushable. -/
theorem C10_remove_invisible_to_flush (s : CachedModel) (i : String) (h : Nat)
    (hs : s.setCache = []) :
    (CachedModel.remove s i h).isFlushable = false ∧
    (CachedModel.remove s i h).removeCache ≠ [] := by
  unfold CachedModel.remove
  by_cases hc : (alookup s.removeCache i).isSome
  · refine ⟨by simp [CachedModel.isFlushable, hc, hs], ?_⟩
    simp only [hc, if_true]
    cases hrc : s.removeCache with
    | nil => rw [hrc] at hc; simp [alookup] at hc
    | cons p rest => simp [hrc]
  · exact ⟨by simp [CachedModel.isFlushable, hc, hs, alookup], by simp [hc, aset_ne_nil]⟩

/-- Claim C10 witness at a concrete input. -/
theorem C10_remove_invisible_to_flush_witness :
    (⟨[], [], [], 0⟩ : CachedModel).setCache = [] ∧
    ((CachedModel.remove ⟨[], [], [], 0⟩ "a" 3).isFlushable = false ∧
     (CachedModel.remove ⟨[], [], [], 0⟩ "a" 3).removeCache ≠ []) :=
  ⟨rfl, C10_remove_invisible_to_flush ⟨[], [], [], 0⟩ "a" 3 rfl⟩

/-- Claim C3: two setIncrement calls for an increment key with no pending
value accumulate a + b into the pending write cache, and the flush leaves
the DB value at its value at flush time plus a + b, the server-side add
rather than an overwrite. -/
theorem C3_setIncrement_accumulates_and_flush_adds (s : CacheMetadataModel)
    (db : String → Int) (k : String) (a b : Int)
    (hk : incrementKeys.contains k = true)
    (h0 : alookup s.setCache k = none) :
    alookup ((s.setIncrement k a).setIncrement k b).setCache k = some (a + b) ∧
    (((s.setIncrement k a).setIncrement k b).flush db).1 k = db k + (a + b) := by
  have hv : alookup ((s.setIncrement k a).setIncrement k b).setCache k = some (a + b) := by
    simp [CacheMetadataModel.setIncrement, h0, alookup_aset_self]
  refine ⟨hv, ?_⟩
  simp only [CacheMetadataModel.flush, hk, if_true, hv]
  by_cases hz : a + b = 0
  · simp [hz]
  · simp [hz]

/-- Claim C3 witness at a concrete input: key processedBlockCount, deltas 3
and 2, stored DB value 10. -/
theorem C3_setIncrement_accumulates_and_flush_adds_witness :
    incrementKeys.contains "processedBlockCount" = true ∧
    alookup (⟨[], [], 0⟩ : CacheMetadataModel).setCache "processedBlockCount" = none ∧
    (alookup (((⟨[], [], 0⟩ : CacheMetadataModel).setIncrement "processedBlockCount" 3).setIncrement
        "processedBlockCount" 2).setCache "processedBlockCount" = some (3 + 2) ∧
     ((((⟨[], [], 0⟩ : CacheMetadataModel).setIncrement "processedBlockCount" 3).setIncrement
        "processedBlockCount" 2).flush (fun _ => 10)).1 "processedBlockCount" =
       (fun _ => (10 : Int)) "processedBlockCount" + (3 + 2)) :=
  ⟨by decide, rfl,
   C3_setIncrement_accumulates_and_flush_adds ⟨[], [], 0⟩ (fun _ => 10)
     "processedBlockCount" 3 2 (by decide) rfl⟩

/-- Claim C6 counterexample: with the provided latestBufferedHeight equal to
0 and an empty height list, the truthiness guard fails, so the code falls
through to the general path and invokes the fetch loop (second component
true), while the claim asserts the fetch loop is not started for every
provided value including 0. -/
theorem C6_counterexample :
    enqueueBlocks initialDispatcher [] (some 0) =
      ({ initialDispatcher with latestBufferedHeight := some 0 }, true) := by decide

/-- Claim C6 as amended: for a provided nonzero latestBufferedHeight and an
empty height list, enqueueBlocks only advances the watermark, queues
nothing and does not start the fetch loop; for the provided value 0 the
watermark is still set and nothing is queued, but the fetch loop is
invoked. -/
theorem C6_empty_enqueue_watermark_only (s : DispatcherState) (v : Nat) (hv : v ≠ 0) :
    enqueueBlocks s [] (some v) = ({ s with latestBufferedHeight := some v }, false) ∧
    enqueueBlocks s [] (some 0) = ({ s with latestBufferedHeight := some 0 }, true) := by
  constructor
  · simp [enqueueBlocks, jsTruthyNat, hv]
  · simp [enqueueBlocks, jsTruthyNat]

/-- Claim C6 amended witness at a concrete input. -/
theorem C6_empty_enqueue_watermark_only_witness :
    (3 : Nat) ≠ 0 ∧
    (enqueueBlocks initialDispatcher [] (some 3) =
        ({ initialDispatcher with latestBufferedHeight := some 3 }, false) ∧
     enqueueBlocks initialDispatcher [] (some 0) =
        ({ initialDispatcher with latestBufferedHeight := some 0 }, true)) :=
  ⟨by decide, C6_empty_enqueue_watermark_only initialDispatcher 3 (by decide)⟩

/-- Claim C1: evaluation at the failing run. Heights 10 to 13 are taken for
an in-flight fetch with watermark snapshot 13; flushQueue 9 empties both
the height queue and the task backlog; the upstream then enqueues 20 and
21, raising the watermark to 21; when the fetch resolves, the staleness
check (snapshot above current watermark, or queue head below the batch
minimum) does not fire, the stale tasks are submitted, and the pre-flush
heights 10 to 13 are delivered to indexBlock, contradicting the claim that
no pre-flush height appears after a flush followed by an enqueue. -/
theorem C1_stale_batch_reaches_indexBlock :
    c1s2.inflight = some ([10, 11, 12, 13], some 13) ∧
    c1s3.queue = [] ∧ c1s3.processQueue = [] ∧
    c1s4.queue = [20, 21] ∧ c1s4.latestBufferedHeight = some 21 ∧
    c1s6.indexed = [10, 11, 12, 13] := by decide

/-- The type component of extractTypeDetails is constant: the unwrap loop
always terminates on a NamedType node. -/
theorem extractTypeDetails_type_eq (t : TypeNode) :
    (extractTypeDetails t).type = "NamedType" := by
  induction t with
  | namedType n => rfl
  | listType t ih => exact ih
  | nonNullType t ih => exact ih

/-- Folding the modified-field step over new fields none of which carry the
given name leaves the accumulator's entry for that name unchanged. -/
theorem fold_step_not_mem (oldFields : List (String × TypeNode)) (name : String) :
    ∀ (l : List (String × TypeNode)) (acc : List (String × FieldChange)),
      (∀ q ∈ l, q.1 ≠ name) →
      alookup (l.foldl (modifiedFieldsStep oldFields) acc) name = alookup acc name := by
  intro l
  induction l with
  | nil => intro acc _; rfl
  | cons x xs ih =>
    intro acc hnm
    rw [List.foldl_cons, ih _ (fun q hq => hnm q (List.mem_cons_of_mem x hq))]
    have hx : x.1 ≠ name := hnm x (List.mem_cons_self x xs)
    simp only [modifiedFieldsStep]
    split
    · rfl
    · split
      · exact alookup_aset_ne _ _ _ _ hx
      · rfl

/-- The modified-field fold records an entry for a name present (uniquely)
among the new fields and present among the old fields exactly when the
extracted kinds differ, starting from any accumulator without that name. -/
theorem modifiedFields_fold_lookup (oldFields : List (String × TypeNode)) (name : String)
    (ot : TypeNode) (hold : alookup oldFields name = some ot) :
    ∀ (l : List (String × TypeNode)) (acc : List (String × FieldChange)) (nt : TypeNode),
      (l.map Prod.fst).Nodup → alookup l name = some nt → alookup acc name = none →
      (alookup (l.foldl (modifiedFieldsStep oldFields) acc) name).isSome =
        ((extractTypeDetails ot).kind != (extractTypeDetails nt).kind) := by
  intro l
  induction l with
  | nil => intro acc nt _ hln _; simp [alookup] at hln
  | cons x xs ih =>
    intro acc nt hnd hln hacc
    obtain ⟨x1, x2⟩ := x
    by_cases hx : x1 = name
    · subst hx
      have hx2 : x2 = nt := by simpa [alookup] using hln
      have hni : x1 ∉ xs.map Prod.fst := by
        rw [List.map_cons] at hnd
        exact (List.nodup_cons.mp hnd).1
      have hnm : ∀ q ∈ xs, q.1 ≠ x1 := by
        intro q hq hqe
        exact hni (hqe ▸ List.mem_map_of_mem Prod.fst hq)
      rw [List.foldl_cons, fold_step_not_mem oldFields x1 xs _ hnm]
      have hfind : oldFields.find? (fun p => p.1 == x1) = some (x1, ot) :=
        find?_of_alookup oldFields x1 ot hold
      rw [← hx2]
      simp only [modifiedFieldsStep, hfind]
      by_cases hkind : (extractTypeDetails ot).kind = (extractTypeDetails x2).kind
      · simp [hkind, hacc]
      · simp [hkind, alookup_aset_self]
    · rw [alookup] at hln
      simp only [beq_iff_eq, hx, if_false] at hln
      have hnd2 : (xs.map Prod.fst).Nodup := by
        rw [List.map_cons] at hnd
        exact (List.nodup_cons.mp hnd).2
      rw [List.foldl_cons]
      refine ih _ nt hnd2 hln ?_
      simp only [modifiedFieldsStep]
      split
      · exact hacc
      · split
        · rw [alookup_aset_ne _ _ _ _ hx]; exact hacc
        · exact hacc

/-- Claim C7: a field name present in both versions of an entity type is
reported in modifiedFields if and only if its extracted type differs or its
extracted kind differs. The source compares kind in both branches of the
disjunction, but the extracted type is the constant NamedType for every
input, so the type disjunct can never fire and the two conditions agree. -/
theorem C7_modifiedFields_iff (newFields oldFields : List (String × TypeNode))
    (name : String) (nt ot : TypeNode)
    (hnd : (newFields.map Prod.fst).Nodup)
    (hnew : alookup newFields name = some nt)
    (hold : alookup oldFields name = some ot) :
    (alookup (modifiedFields newFields oldFields) name).isSome =
      (((extractTypeDetails ot).type != (extractTypeDetails nt).type) ||
       ((extractTypeDetails ot).kind != (extractTypeDetails nt).kind)) := by
  rw [modifiedFields,
    modifiedFields_fold_lookup oldFields name ot hold newFields [] nt hnd hnew rfl,
    extractTypeDetails_type_eq ot, extractTypeDetails_type_eq nt]
  simp

/-- Claim C7 witness: the field a changes from BigInt to Int, so it is
reported. -/
theorem C7_modifiedFields_iff_witness :
    (([("a", TypeNode.namedType "Int")].map Prod.fst).Nodup) ∧
    alookup [("a", TypeNode.namedType "Int")] "a" = some (TypeNode.namedType "Int") ∧
    alookup [("a", TypeNode.namedType "BigInt")] "a" = some (TypeNode.namedType "BigInt") ∧
    (alookup (modifiedFields [("a", TypeNode.namedType "Int")]
        [("a", TypeNode.namedType "BigInt")]) "a").isSome =
      (((extractTypeDetails (TypeNode.namedType "BigInt")).type !=
          (extractTypeDetails (TypeNode.namedType "Int")).type) ||
       ((extractTypeDetails (TypeNode.namedType "BigInt")).kind !=
          (extractTypeDetails (TypeNode.namedType "Int")).kind)) :=
  ⟨by decide, by decide, by decide,
   C7_modifiedFields_iff [("a", TypeNode.namedType "Int")] [("a", TypeNode.namedType "BigInt")]
     "a" (TypeNode.namedType "Int") (TypeNode.namedType "BigInt")
     (by decide) (by decide) (by decide)⟩

end Subql
